import Mathlib

/-!
Verification of the Job_Tracker service (src/src/server.ts) against its
natural-language specification.

The development shallowly embeds the three algorithmic cores of the
repository — the match scorer `calculateJobScore` with its batch endpoint
`/api/match-jobs`, the career-page extractor `parseCareerPage`, and the
status pipeline of the `PUT /api/jobs/:id` handlers (both the JSON-file
backend and the Postgres backend) — as executable Lean definitions.

Modelling conventions:
* JS numbers are modelled as `ℚ` (for the fractional factor arithmetic) and
  `Int` (for timestamps in milliseconds and rounded results).
  `Math.round x` is `⌊x + 1/2⌋` and `Math.floor (a / b)` on millisecond
  integers is `Int.fdiv`.
* JS strings are ASCII-compatible Lean `String`s; `toLowerCase`,
  `includes`, `trim` are reimplemented on character lists.
* `new Date()` / `Date.now()` is passed in as an explicit `now` parameter.
* Optional / possibly-absent JS fields are `Option`; JS truthiness of a
  string is the test `s ≠ ""` and of an optional field `·.isSome`
  (refined to the exact truthiness test wherever the code relies on it).
-/

namespace JobTracker

/-- JS `hay.toLowerCase()` (ASCII case folding, as used by the source on
its ASCII keyword vocabularies). -/
def jsToLower (s : String) : String :=
  String.mk (s.data.map Char.toLower)

/-- Helper for `strIncludes`: does `needle` occur as a prefix of some
suffix of `hay`? -/
def includesAux (hay needle : List Char) : Bool :=
  match hay with
  | [] => needle.isEmpty
  | _ :: t => needle.isPrefixOf hay || includesAux t needle

/-- JS `hay.includes(needle)`: substring containment. -/
def strIncludes (hay needle : String) : Bool :=
  includesAux hay.data needle.data

/-- JS `s.trim()` (whitespace stripping at both ends). -/
def jsTrim (s : String) : String :=
  String.mk (((s.data.dropWhile Char.isWhitespace).reverse.dropWhile
    Char.isWhitespace).reverse)

/-- JS `Math.round q` for a (finite) number: round half towards positive
infinity. -/
def jsRound (q : ℚ) : ℤ :=
  ⌊q + 1 / 2⌋

/-- JS truthiness of an optional string field (absent, `''` falsy). -/
def truthyStr : Option String → Bool
  | none => false
  | some s => !(s = "")

/-! ## Match scorer (`calculateJobScore`, server.ts lines 986–1123)

The scorer reads `title`, `description`, `company`, `postedDate`,
`experienceLevel` and `location` off the request-supplied job object. -/

/-- The scorer's view of a job object (`job` argument of
`calculateJobScore`). `postedDate` is the posting timestamp in
milliseconds, `none` when the field is absent/falsy. -/
structure MatchJob where
  title : String
  company : String
  location : String
  description : String
  postedDate : Option Int
  experienceLevel : String
  deriving DecidableEq, Repr

/-- The scorer's view of the user profile (`profile` argument). -/
structure Profile where
  skills : List String
  experienceLevel : String
  deriving DecidableEq, Repr

/-- Per-factor breakdown returned by the scorer (`score.breakdown`). -/
structure Breakdown where
  skills : ℤ
  recency : ℤ
  experience : ℤ
  signals : ℤ
  deriving DecidableEq, Repr

/-- Full result of `calculateJobScore`. -/
structure ScoreResult where
  total : ℤ
  breakdown : Breakdown
  hireProbability : ℤ
  reasoning : List String
  deriving DecidableEq, Repr

/-- `profile.skills.map(s => s.toLowerCase())`. -/
def userSkills (p : Profile) : List String :=
  p.skills.map jsToLower

/-- `` `${job.title} ${job.description} ${job.company}`.toLowerCase() ``. -/
def jobTextOf (j : MatchJob) : String :=
  jsToLower (j.title ++ " " ++ j.description ++ " " ++ j.company)

/-- The lowercased profile skills found as substrings of the job text
(the `foundSkills` accumulator of the scorer). -/
def foundSkills (j : MatchJob) (p : Profile) : List String :=
  (userSkills p).filter (fun s => strIncludes (jobTextOf j) s)

/-- `matchedSkills` counter of the scorer. -/
def matchedSkills (j : MatchJob) (p : Profile) : ℕ :=
  (foundSkills j p).length

/-- `skillScore = Math.min(40, (matchedSkills / userSkills.length) * 40)`. -/
def skillScoreQ (j : MatchJob) (p : Profile) : ℚ :=
  min 40 ((matchedSkills j p : ℚ) / ((userSkills p).length : ℚ) * 40)

/-- Reasoning entry produced by the skills factor (pushed only when at
least one skill matched). -/
def skillReasoning (j : MatchJob) (p : Profile) : List String :=
  if 0 < matchedSkills j p then
    ["Matches " ++ toString (matchedSkills j p) ++ "/" ++
      toString (userSkills p).length ++ " of your skills: " ++
      String.intercalate ", " (foundSkills j p)]
  else []

/-- Milliseconds per day, the divisor `1000 * 60 * 60 * 24`. -/
def msPerDay : Int := 86400000

/-- `daysAgo = Math.floor((now - posted) / (1000*60*60*24))`. -/
def daysAgo (now posted : Int) : Int :=
  (now - posted).fdiv msPerDay

/-- The recency factor (25 points max); 0 when `postedDate` is absent. -/
def recencyScore (now : Int) (pd : Option Int) : ℚ :=
  match pd with
  | none => 0
  | some posted =>
    if daysAgo now posted ≤ 1 then 25
    else if daysAgo now posted ≤ 3 then 20
    else if daysAgo now posted ≤ 7 then 15
    else if daysAgo now posted ≤ 14 then 10
    else 5

/-- Reasoning entry produced by the recency factor; nothing is pushed when
`postedDate` is absent. -/
def recencyReasoning (now : Int) (pd : Option Int) : List String :=
  match pd with
  | none => []
  | some posted =>
    if daysAgo now posted ≤ 1 then ["Posted today - fresh opportunity!"]
    else if daysAgo now posted ≤ 3 then
      ["Posted " ++ toString (daysAgo now posted) ++ " days ago - very recent"]
    else if daysAgo now posted ≤ 7 then
      ["Posted " ++ toString (daysAgo now posted) ++ " days ago - recent"]
    else if daysAgo now posted ≤ 14 then
      ["Posted " ++ toString (daysAgo now posted) ++ " days ago"]
    else ["Posted " ++ toString (daysAgo now posted) ++ " days ago - older posting"]

/-- `profile.experienceLevel || 'mid'` (resp. `job.experienceLevel || 'mid'`). -/
def orMid (s : String) : String :=
  if s = "" then "mid" else s

/-- The experience-level factor (20 points max), on the defaulted levels. -/
def experienceScoreQ (userLevel jobLevel : String) : ℚ :=
  if userLevel = jobLevel then 20
  else if (userLevel = "mid" ∧ jobLevel = "junior") ∨
      (userLevel = "senior" ∧ jobLevel = "mid") then 15
  else if (userLevel = "junior" ∧ jobLevel = "mid") ∨
      (userLevel = "mid" ∧ jobLevel = "senior") then 10
  else 5

/-- Reasoning entry produced by the experience factor (always exactly one). -/
def experienceReasoning (userLevel jobLevel : String) : List String :=
  if userLevel = jobLevel then
    ["Perfect experience level match (" ++ jobLevel ++ ")"]
  else if (userLevel = "mid" ∧ jobLevel = "junior") ∨
      (userLevel = "senior" ∧ jobLevel = "mid") then
    ["Slight overqualified - good for career growth"]
  else if (userLevel = "junior" ∧ jobLevel = "mid") ∨
      (userLevel = "mid" ∧ jobLevel = "senior") then
    ["Stretch role - challenging opportunity"]
  else ["Experience level mismatch"]

def urgentKeywords : List String :=
  ["urgent", "immediate", "asap", "hiring now", "start immediately"]

def juniorFriendly : List String :=
  ["junior", "entry level", "mentorship", "training provided", "will train"]

def startupKeywords : List String :=
  ["startup", "scale-up", "fast-growing", "seed", "series a"]

def smallCompanyKeywords : List String :=
  ["small team", "5-10 people", "small company", "tight-knit"]

/-- `job.location && (job.location.toLowerCase().includes('remote') ||
job.location.toLowerCase().includes('worldwide'))`. -/
def remoteSignal (j : MatchJob) : Bool :=
  !(j.location = "") &&
    (strIncludes (jsToLower j.location) "remote" ||
     strIncludes (jsToLower j.location) "worldwide")

/-- The additive `hiringSignals` point bag, before the cap. -/
def hiringSignalsRaw (j : MatchJob) : ℚ :=
  (if urgentKeywords.any (fun k => strIncludes (jobTextOf j) k) then 5 else 0) +
  (if juniorFriendly.any (fun k => strIncludes (jobTextOf j) k) then 3 else 0) +
  (if remoteSignal j then 3 else 0) +
  (if startupKeywords.any (fun k => strIncludes (jobTextOf j) k) then 2 else 0) +
  (if smallCompanyKeywords.any (fun k => strIncludes (jobTextOf j) k) then 2 else 0)

/-- `hireProbabilityScore = Math.min(15, hiringSignals)`. -/
def signalsScoreQ (j : MatchJob) : ℚ :=
  min 15 (hiringSignalsRaw j)

/-- Reasoning entries pushed by the hiring-signal families, in evaluation
order. -/
def signalsReasoning (j : MatchJob) : List String :=
  (if urgentKeywords.any (fun k => strIncludes (jobTextOf j) k) then
    ["Urgent hiring - higher chance"] else []) ++
  (if juniorFriendly.any (fun k => strIncludes (jobTextOf j) k) then
    ["Junior-friendly environment"] else []) ++
  (if remoteSignal j then ["Fully remote - broader candidate pool"] else []) ++
  (if startupKeywords.any (fun k => strIncludes (jobTextOf j) k) then
    ["Startup - potentially faster hiring"] else []) ++
  (if smallCompanyKeywords.any (fun k => strIncludes (jobTextOf j) k) then
    ["Small team - direct impact"] else [])

/-- `calculateJobScore(job, profile)` (server.ts lines 986–1123), with the
wall clock `now` (milliseconds) as an explicit parameter. -/
def calculateJobScore (now : Int) (job : MatchJob) (profile : Profile) :
    ScoreResult :=
  let skillScore := skillScoreQ job profile
  let recency := recencyScore now job.postedDate
  let experience :=
    experienceScoreQ (orMid profile.experienceLevel) (orMid job.experienceLevel)
  let signals := signalsScoreQ job
  let total := jsRound (skillScore + recency + experience + signals)
  let hireProbability :=
    min 100 (jsRound (skillScore / 40 * 40 + recency / 25 * 25 +
      experience / 20 * 20 + signals / 15 * 15))
  { total := total
    breakdown :=
      { skills := jsRound skillScore
        recency := jsRound recency
        experience := jsRound experience
        signals := jsRound signals }
    hireProbability := hireProbability
    reasoning :=
      (skillReasoning job profile ++ recencyReasoning now job.postedDate ++
        experienceReasoning (orMid profile.experienceLevel)
          (orMid job.experienceLevel) ++
        signalsReasoning job).take 3 }

/-! ## Batch scoring endpoint (`POST /api/match-jobs`, server.ts 951–983) -/

/-- A job enriched by the batch endpoint:
`{ ...job, matchScore, matchDetails, hireProbability, reasoning }`. -/
structure ScoredJob where
  job : MatchJob
  matchScore : ℤ
  matchDetails : Breakdown
  hireProbability : ℤ
  reasoning : List String
  deriving DecidableEq, Repr

/-- The per-job enrichment performed inside `jobs.map(...)`. -/
def enrichJob (now : Int) (p : Profile) (job : MatchJob) : ScoredJob :=
  let score := calculateJobScore now job p
  { job := job
    matchScore := score.total
    matchDetails := score.breakdown
    hireProbability := score.hireProbability
    reasoning := score.reasoning }

/-- The comparator `(a, b) => b.matchScore - a.matchScore` of the batch
endpoint, as the ordering "a may come before b". -/
def scoreLE (a b : ScoredJob) : Bool :=
  b.matchScore ≤ a.matchScore

/-- The batch scorer: map `calculateJobScore` over the jobs, then the
(stable, per the ECMAScript specification) in-place
`sort((a, b) => b.matchScore - a.matchScore)`. -/
def matchJobs (now : Int) (jobs : List MatchJob) (p : Profile) :
    List ScoredJob :=
  (jobs.map (enrichJob now p)).mergeSort scoreLE

/-- The raw profile as delivered in the request body; `skills` is absent
(`undefined`) or present. -/
structure RawProfile where
  skills : Option (List String)
  experienceLevel : String
  deriving DecidableEq, Repr

/-- The `/api/match-jobs` handler including its input validation:
`if (!jobs || !Array.isArray(jobs)) → 400`;
`if (!profile || !profile.skills) → 400`. Note that the second test is JS
truthiness of the `skills` value: an empty array is truthy and passes. -/
def matchJobsEndpoint (now : Int) (jobs : Option (List MatchJob))
    (profile : Option RawProfile) : Except String (List ScoredJob) :=
  match jobs with
  | none => .error "Jobs array required"
  | some js =>
    match profile with
    | none => .error "Profile with skills required"
    | some rp =>
      match rp.skills with
      | none => .error "Profile with skills required"
      | some sk => .ok (matchJobs now js { skills := sk, experienceLevel := rp.experienceLevel })

/-! ## Status pipeline (`PUT /api/jobs/:id`)

Two backends coexist in server.ts: a JSON-file backend (lines 141–164) and
a Postgres backend (lines 533–630). Both are modelled on the same stored
record shape. -/

/-- A stored job record. `appliedDate` is `none` until stamped. -/
structure StoreJob where
  id : String
  title : String
  company : String
  location : String
  description : String
  url : String
  postedDate : String
  salary : Option String
  experienceLevel : String
  status : String
  appliedDate : Option String
  nextAction : Option String
  nextActionDate : Option String
  notes : Option String
  deriving DecidableEq, Repr

/-- The update payload (`req.body` of the PUT handler); each field is
absent or present. -/
structure UpdateReq where
  title : Option String := none
  company : Option String := none
  location : Option String := none
  description : Option String := none
  url : Option String := none
  salary : Option String := none
  experienceLevel : Option String := none
  status : Option String := none
  appliedDate : Option String := none
  nextAction : Option String := none
  nextActionDate : Option String := none
  notes : Option String := none
  deriving DecidableEq, Repr

/-- JSON-file backend update (server.ts 150–156):
`db.jobs[jobIndex] = { ...db.jobs[jobIndex], ...updates }` followed by
`if (updates.status === 'applied' && !db.jobs[jobIndex].appliedDate)
   db.jobs[jobIndex].appliedDate = new Date().toISOString()`. -/
def jsonApplyUpdate (nowIso : String) (u : UpdateReq) (j : StoreJob) :
    StoreJob :=
  let merged : StoreJob :=
    { j with
      title := u.title.getD j.title
      company := u.company.getD j.company
      location := u.location.getD j.location
      description := u.description.getD j.description
      url := u.url.getD j.url
      salary := match u.salary with | some s => some s | none => j.salary
      experienceLevel := u.experienceLevel.getD j.experienceLevel
      status := u.status.getD j.status
      appliedDate :=
        match u.appliedDate with | some s => some s | none => j.appliedDate
      nextAction :=
        match u.nextAction with | some s => some s | none => j.nextAction
      nextActionDate :=
        match u.nextActionDate with | some s => some s | none => j.nextActionDate
      notes := match u.notes with | some s => some s | none => j.notes }
  if u.status = some "applied" ∧ merged.appliedDate = none then
    { merged with appliedDate := some nowIso }
  else merged

/-- Postgres backend update (server.ts 533–630): each field has its own
presence test (`if (updates.title)` is a truthiness test, the others are
`!== undefined` tests), and inside the `if (updates.status)` branch the
handler unconditionally adds `applied_date = now` whenever the new status
is `'applied'`. -/
def pgApplyUpdate (nowIso : String) (u : UpdateReq) (j : StoreJob) :
    StoreJob :=
  { j with
    title := match u.title with
      | some t => if t = "" then j.title else t
      | none => j.title
    company := match u.company with
      | some c => if c = "" then j.company else c
      | none => j.company
    location := u.location.getD j.location
    description := u.description.getD j.description
    url := u.url.getD j.url
    salary := match u.salary with | some s => some s | none => j.salary
    experienceLevel := u.experienceLevel.getD j.experienceLevel
    status := match u.status with
      | some s => if s = "" then j.status else s
      | none => j.status
    appliedDate := match u.status with
      | some s => if s = "" then j.appliedDate
          else if s = "applied" then some nowIso else j.appliedDate
      | none => j.appliedDate
    nextAction :=
      match u.nextAction with | some s => some s | none => j.nextAction
    nextActionDate :=
      match u.nextActionDate with | some s => some s | none => j.nextActionDate
    notes := match u.notes with | some s => some s | none => j.notes }

/-! ## Store operations (JSON-file backend CRUD, server.ts 108–183) -/

/-- Creation payload (`req.body` of `POST /api/jobs`). -/
structure CreateReq where
  title : Option String := none
  company : Option String := none
  location : Option String := none
  description : Option String := none
  url : Option String := none
  salary : Option String := none
  experienceLevel : Option String := none
  deriving DecidableEq, Repr

/-- `POST /api/jobs`: `if (!title || !company || !url) → 400`, otherwise a
new job with `id = job_<Date.now()>`, defaulted fields and
`status: 'new'`. Returns `none` on the validation failure. -/
def jsonCreateJob (nowMs : Int) (nowIso : String) (r : CreateReq) :
    Option StoreJob :=
  if truthyStr r.title && truthyStr r.company && truthyStr r.url then
    some
      { id := "job_" ++ toString nowMs
        title := r.title.getD ""
        company := r.company.getD ""
        location := if truthyStr r.location then r.location.getD "" else "Not specified"
        description := r.description.getD ""
        url := r.url.getD ""
        postedDate := nowIso
        salary := r.salary
        experienceLevel :=
          if truthyStr r.experienceLevel then r.experienceLevel.getD "" else "mid"
        status := "new"
        appliedDate := none
        nextAction := none
        nextActionDate := none
        notes := none }
  else none

/-- `findIndex` + in-place assignment: update the first record matching
the predicate. -/
def updateFirst (pred : StoreJob → Bool) (f : StoreJob → StoreJob) :
    List StoreJob → List StoreJob
  | [] => []
  | j :: rest => if pred j then f j :: rest else j :: updateFirst pred f rest

/-- One request against the JSON-file store. -/
inductive StoreOp where
  | create (nowMs : Int) (nowIso : String) (r : CreateReq)
  | update (id : String) (nowIso : String) (u : UpdateReq)
  | del (id : String)
  deriving DecidableEq, Repr

/-- Apply one request to the store (`db.jobs`): create unshifts, update
rewrites the first record with the matching id, delete splices it out. -/
def applyOp (s : List StoreJob) : StoreOp → List StoreJob
  | .create nowMs nowIso r =>
    match jsonCreateJob nowMs nowIso r with
    | some j => j :: s
    | none => s
  | .update id nowIso u => updateFirst (fun j => j.id = id) (jsonApplyUpdate nowIso u) s
  | .del id => s.eraseP (fun j => j.id = id)

/-- Apply a sequence of requests. -/
def runOps (s : List StoreJob) (ops : List StoreOp) : List StoreJob :=
  ops.foldl applyOp s

/-- The seven statuses enumerated by the `Job` interface. -/
def validStatuses : List String :=
  ["new", "reviewed", "tailoring", "applied", "interviewing", "rejected", "offer"]

/-- Does every stored job carry one of the seven enumerated statuses? -/
def statusOk (s : List StoreJob) : Bool :=
  s.all (fun j => validStatuses.contains j.status)

/-! ## Career-page extractor (`parseCareerPage`, server.ts 1246–1369)

The anchor scan (`/<a[^>]+href=["']([^"']+)["'][^>]*>(...)<\/a>/gi`) is
modelled as taking the list of matched anchors (href, raw inner HTML);
the JSON-LD script scan is modelled as taking each script block's
`JSON.parse` result, where `none` stands for a block on which
`JSON.parse` throws (the per-block `try { ... } catch (e) { }`). -/

/-- A JSON value, plus JS `undefined` for absent property access. -/
inductive Json where
  | undefined : Json
  | null : Json
  | bool (b : Bool) : Json
  | num (n : Int) : Json
  | str (s : String) : Json
  | arr (xs : List Json) : Json
  | obj (fields : List (String × Json)) : Json

/-- JS property access `j[k]` (undefined on non-objects, as under `?.`). -/
def Json.get : Json → String → Json
  | .obj fs, k =>
    match fs.find? (fun p => p.1 = k) with
    | some p => p.2
    | none => .undefined
  | _, _ => .undefined

/-- JS truthiness of a JSON value. -/
def Json.truthy : Json → Bool
  | .undefined => false
  | .null => false
  | .bool b => b
  | .num n => !(n = 0)
  | .str s => !(s = "")
  | .arr _ => true
  | .obj _ => true

/-- JS `a || b`. -/
def jsOr (a b : Json) : Json :=
  if a.truthy then a else b

/-- A JSON value coerced to a string (only string values occur in the
verified properties; other shapes take JS display forms). -/
def Json.asString : Json → String
  | .undefined => "undefined"
  | .null => "null"
  | .bool b => if b then "true" else "false"
  | .num n => toString n
  | .str s => s
  | .arr _ => ""
  | .obj _ => "[object Object]"

/-- JS `s.startsWith(pre)` (character-list based). -/
def strStartsWith (s pre : String) : Bool :=
  pre.data.isPrefixOf s.data

/-- An anchor element matched by the link pattern: the captured href and
the raw inner HTML (capture groups 1 and 2). -/
structure Anchor where
  href : String
  inner : String
  deriving DecidableEq, Repr

/-- A record emitted by the extractor (`jobs.push({...})`). -/
structure PageJob where
  title : String
  company : String
  location : String
  description : String
  url : String
  salary : Option String
  experienceLevel : String
  postedDate : String
  source : String
  deriving DecidableEq, Repr

/-- After a `<`, try to match the regex tail `[^>]+>`: at least one
non-`>` character followed by `>`; return the remainder after the `>`. -/
def tagEnd? (rest : List Char) : Option (List Char) :=
  let t := rest.takeWhile (fun d => !(d = '>'))
  match rest.drop t.length with
  | '>' :: r => if t.isEmpty then none else some r
  | _ => none

/-- Fuel-driven scanner for `linkText.replace(/<[^>]+>/g, '')`; the fuel
is the length of the input, which each step strictly consumes. -/
def stripTagsAux : Nat → List Char → List Char
  | 0, _ => []
  | _ + 1, [] => []
  | f + 1, c :: rest =>
    if c = '<' then
      match tagEnd? rest with
      | some r => stripTagsAux f r
      | none => c :: stripTagsAux f rest
    else c :: stripTagsAux f rest

/-- `match[2].replace(/<[^>]+>/g, '')`. -/
def stripTags (s : String) : String :=
  String.mk (stripTagsAux s.data.length s.data)

/-- `const linkText = match[2].replace(/<[^>]+>/g, '').trim()`. -/
def linkTextOf (a : Anchor) : String :=
  jsTrim (stripTags a.inner)

/-- The fixed role/department vocabulary of the extractor. -/
def jobKeywords : List String :=
  ["engineer", "developer", "designer", "manager", "analyst",
   "architect", "lead", "senior", "junior", "intern", "fullstack",
   "frontend", "backend", "devops", "data", "ml", "ai", "product"]

/-- `isJobLink`: some role keyword occurs in the link text or the href,
or the href contains "job" / "career" / "position" (the three href tests
sit inside the `some(...)` callback exactly as in the source). -/
def isJobLink (a : Anchor) : Bool :=
  jobKeywords.any (fun keyword =>
    strIncludes (jsToLower (linkTextOf a)) keyword ||
    strIncludes (jsToLower a.href) keyword ||
    strIncludes (jsToLower a.href) "job" ||
    strIncludes (jsToLower a.href) "career" ||
    strIncludes (jsToLower a.href) "position")

/-- The optional keyword filter: `keywords.toLowerCase().split(' ')`,
require some term to occur in the link text. An absent or empty keywords
string (JS-falsy) disables the filter. -/
def passesKeywordFilter (kw : Option String) (linkText : String) : Bool :=
  if truthyStr kw then
    ((jsToLower (kw.getD "")).splitOn " ").any (fun term =>
      strIncludes (jsToLower linkText) term)
  else true

/-- The scheme of a URL up to and including the colon
(`urlObj.protocol`, e.g. `"https:"`). -/
def urlProtocol (u : String) : String :=
  String.mk (u.data.takeWhile (fun c => !(c = ':'))) ++ ":"

/-- The host (with port) of a URL: what follows `"://"` up to the next
`/`, `?` or `#` (`urlObj.host`). -/
def urlHost (u : String) : String :=
  let afterScheme :=
    (u.data.dropWhile (fun c => !(c = ':'))).drop 3
  String.mk (afterScheme.takeWhile (fun c => !(c = '/' ∨ c = '?' ∨ c = '#')))

/-- Everything of `base` up to and including its last `/` (models the
path-merge step of `new URL(url, base)` for plain relative references). -/
def dropLastSegment (base : String) : String :=
  String.mk (((base.data.reverse.dropWhile (fun c => !(c = '/')))).reverse)

/-- URL resolution of the extractor: root-relative hrefs get
`` `${urlObj.protocol}//${urlObj.host}${url}` ``; other non-`http`
hrefs go through `new URL(url, baseUrl).href` (modelled for plain
relative paths); absolute hrefs pass through. -/
def resolveUrl (baseUrl url : String) : String :=
  if strStartsWith url "/" then
    urlProtocol baseUrl ++ "//" ++ urlHost baseUrl ++ url
  else if !(strStartsWith url "http") then
    dropLastSegment baseUrl ++ url
  else url

/-- `senior`/`junior`/`mid` inference from the title
(`determineExperienceLevel`, server.ts 1372–1380). -/
def determineExperienceLevel (title : String) : String :=
  let lower := jsToLower title
  if strIncludes lower "senior" || strIncludes lower "lead" ||
      strIncludes lower "staff" || strIncludes lower "principal" then
    "senior"
  else if strIncludes lower "junior" || strIncludes lower "entry" ||
      strIncludes lower "intern" then
    "junior"
  else "mid"

/-- The record pushed for an accepted anchor. -/
def anchorJob (company baseUrl nowIso : String) (a : Anchor) : PageJob :=
  { title := linkTextOf a
    company := company
    location := "See job posting"
    description := "Found on " ++ company ++ " careers page"
    url := resolveUrl baseUrl a.href
    salary := none
    experienceLevel := determineExperienceLevel (linkTextOf a)
    postedDate := nowIso
    source := company ++ " Careers" }

/-- The anchor pass: keep an anchor iff it classifies as a job link, its
link text length is strictly between 10 and 150, and it survives the
optional keyword filter. -/
def anchorJobs (company baseUrl nowIso : String) (kw : Option String)
    (anchors : List Anchor) : List PageJob :=
  anchors.filterMap (fun a =>
    if isJobLink a && decide (10 < (linkTextOf a).length) &&
        decide ((linkTextOf a).length < 150) then
      if passesKeywordFilter kw (linkTextOf a) then
        some (anchorJob company baseUrl nowIso a)
      else none
    else none)

/-- Is this parsed block (or array element) a schema.org `JobPosting`? -/
def typeIsJobPosting (j : Json) : Bool :=
  match j.get "@type" with
  | .str s => s = "JobPosting"
  | _ => false

/-- The record pushed for one JSON-LD `JobPosting` object. -/
def ldJob (company baseUrl nowIso : String) (p : Json) : PageJob :=
  { title := (jsOr (jsOr (p.get "title") (p.get "name")) (.str "Position")).asString
    company := company
    location :=
      (jsOr (((p.get "jobLocation").get "address").get "addressLocality")
        (.str "See job posting")).asString
    description :=
      String.mk ((jsOr (p.get "description") (.str "")).asString.data.take 500)
    url := (jsOr (p.get "url") (.str baseUrl)).asString
    salary :=
      match jsOr (((p.get "baseSalary").get "value").get "value") .null with
      | .null => none
      | v => some v.asString
    experienceLevel := "mid"
    postedDate := (jsOr (p.get "datePosted") (.str nowIso)).asString
    source := company ++ " Careers" }

/-- Process one script block's `JSON.parse` result: a malformed block
(`none`, i.e. `JSON.parse` threw) contributes nothing; a parsed value
contributes a record per `JobPosting` entry when the top-level shape
passes the `@type` test. -/
def ldJobs (company baseUrl nowIso : String) : Option Json → List PageJob
  | none => []
  | some j =>
    let isArrayWithPosting :=
      match j with
      | .arr xs => xs.any typeIsJobPosting
      | _ => false
    if typeIsJobPosting j || isArrayWithPosting then
      let postings := match j with | .arr xs => xs | _ => [j]
      postings.filterMap (fun p =>
        if typeIsJobPosting p then some (ldJob company baseUrl nowIso p)
        else none)
    else []

/-- `jobs.filter((job, index, self) => index === self.findIndex(j =>
j.title === job.title && j.url === job.url))`: keep the first occurrence
of each (title, url) pair. -/
def dedupJobs (l : List PageJob) : List PageJob :=
  ((l.enum).filter (fun ij =>
    l.findIdx? (fun j => j.title = ij.2.title ∧ j.url = ij.2.url) =
      some ij.1)).map (fun ij => ij.2)

/-- `parseCareerPage(html, companyName, baseUrl, keywords)`: the anchor
pass, then — only when it yielded fewer than 3 records — the JSON-LD
fallback pass, then deduplication. -/
def parseCareerPage (nowIso company baseUrl : String) (kw : Option String)
    (anchors : List Anchor) (blocks : List (Option Json)) : List PageJob :=
  let fromAnchors := anchorJobs company baseUrl nowIso kw anchors
  let allJobs :=
    if fromAnchors.length < 3 then
      fromAnchors ++ (blocks.map (ldJobs company baseUrl nowIso)).flatten
    else fromAnchors
  dedupJobs allJobs

/-! ## Sample inputs used by witnesses -/

/-- Sample job used by witness instantiations. -/
def jobW : MatchJob :=
  { title := "Senior Python Developer"
    company := "Acme"
    location := "Remote"
    description := "We use python and sql. urgent"
    postedDate := some 0
    experienceLevel := "senior" }

/-- Sample profile used by witness instantiations. -/
def profW : Profile :=
  { skills := ["Python", "SQL", "Rust"], experienceLevel := "mid" }

/-! ## Shared bound lemmas for the scorer -/

theorem skillScoreQ_nonneg (j : MatchJob) (p : Profile) :
    0 ≤ skillScoreQ j p := by
  unfold skillScoreQ
  apply le_min (by norm_num)
  apply mul_nonneg _ (by norm_num)
  exact div_nonneg (by positivity) (by positivity)

theorem skillScoreQ_le (j : MatchJob) (p : Profile) :
    skillScoreQ j p ≤ 40 :=
  min_le_left _ _

theorem recencyScore_nonneg (now : Int) (pd : Option Int) :
    0 ≤ recencyScore now pd := by
  unfold recencyScore
  cases pd with
  | none => norm_num
  | some posted =>
    dsimp only
    split_ifs <;> norm_num

theorem recencyScore_le (now : Int) (pd : Option Int) :
    recencyScore now pd ≤ 25 := by
  unfold recencyScore
  cases pd with
  | none => norm_num
  | some posted =>
    dsimp only
    split_ifs <;> norm_num

theorem experienceScoreQ_nonneg (u v : String) :
    0 ≤ experienceScoreQ u v := by
  unfold experienceScoreQ
  split_ifs <;> norm_num

theorem experienceScoreQ_le (u v : String) :
    experienceScoreQ u v ≤ 20 := by
  unfold experienceScoreQ
  split_ifs <;> norm_num

theorem signalsScoreQ_nonneg (j : MatchJob) :
    0 ≤ signalsScoreQ j := by
  unfold signalsScoreQ hiringSignalsRaw
  apply le_min (by norm_num)
  have h1 : (0:ℚ) ≤ if urgentKeywords.any (fun k => strIncludes (jobTextOf j) k) then 5 else 0 := by
    split <;> norm_num
  have h2 : (0:ℚ) ≤ if juniorFriendly.any (fun k => strIncludes (jobTextOf j) k) then 3 else 0 := by
    split <;> norm_num
  have h3 : (0:ℚ) ≤ if remoteSignal j then 3 else 0 := by
    split <;> norm_num
  have h4 : (0:ℚ) ≤ if startupKeywords.any (fun k => strIncludes (jobTextOf j) k) then 2 else 0 := by
    split <;> norm_num
  have h5 : (0:ℚ) ≤ if smallCompanyKeywords.any (fun k => strIncludes (jobTextOf j) k) then 2 else 0 := by
    split <;> norm_num
  linarith

theorem signalsScoreQ_le (j : MatchJob) :
    signalsScoreQ j ≤ 15 :=
  min_le_left _ _

theorem jsRound_nonneg {q : ℚ} (h : 0 ≤ q) : 0 ≤ jsRound q := by
  unfold jsRound
  exact Int.le_floor.mpr (by push_cast; linarith)

theorem jsRound_le_hundred {q : ℚ} (h : q ≤ 100) : jsRound q ≤ 100 := by
  unfold jsRound
  have h1 : ⌊q + 1 / 2⌋ ≤ ⌊(100 : ℚ) + 1 / 2⌋ := Int.floor_le_floor (by linarith)
  have h2 : ⌊(100 : ℚ) + 1 / 2⌋ = 100 := by
    rw [Int.floor_eq_iff]
    norm_num
  omega

/-- The sum of the four factors, as assembled inside `calculateJobScore`. -/
def factorSum (now : Int) (j : MatchJob) (p : Profile) : ℚ :=
  skillScoreQ j p + recencyScore now j.postedDate +
    experienceScoreQ (orMid p.experienceLevel) (orMid j.experienceLevel) +
    signalsScoreQ j

theorem factorSum_nonneg (now : Int) (j : MatchJob) (p : Profile) :
    0 ≤ factorSum now j p := by
  unfold factorSum
  have := skillScoreQ_nonneg j p
  have := recencyScore_nonneg now j.postedDate
  have := experienceScoreQ_nonneg (orMid p.experienceLevel) (orMid j.experienceLevel)
  have := signalsScoreQ_nonneg j
  linarith

theorem factorSum_le (now : Int) (j : MatchJob) (p : Profile) :
    factorSum now j p ≤ 100 := by
  unfold factorSum
  have := skillScoreQ_le j p
  have := recencyScore_le now j.postedDate
  have := experienceScoreQ_le (orMid p.experienceLevel) (orMid j.experienceLevel)
  have := signalsScoreQ_le j
  linarith

theorem total_eq_round_factorSum (now : Int) (j : MatchJob) (p : Profile) :
    (calculateJobScore now j p).total = jsRound (factorSum now j p) := rfl

theorem total_le_hundred (now : Int) (j : MatchJob) (p : Profile) :
    (calculateJobScore now j p).total ≤ 100 := by
  rw [total_eq_round_factorSum]
  exact jsRound_le_hundred (factorSum_le now j p)

theorem total_nonneg (now : Int) (j : MatchJob) (p : Profile) :
    0 ≤ (calculateJobScore now j p).total := by
  rw [total_eq_round_factorSum]
  exact jsRound_nonneg (factorSum_nonneg now j p)

/-! ## Claim theorems -/

/-- Claim C1: for every job and every profile with a non-empty skills
list, the scorer's `total` equals `round(skillScore + recencyScore +
experienceScore + signalsScore)`, each factor lies within its documented
cap (skills 40, recency 25, experience 20, signals 15), and `total` is in
[0, 100]. -/
theorem scorer_total_bounds (now : Int) (j : MatchJob) (p : Profile)
    (h : p.skills ≠ []) :
    (calculateJobScore now j p).total =
      jsRound (skillScoreQ j p + recencyScore now j.postedDate +
        experienceScoreQ (orMid p.experienceLevel) (orMid j.experienceLevel) +
        signalsScoreQ j) ∧
    0 ≤ skillScoreQ j p ∧ skillScoreQ j p ≤ 40 ∧
    0 ≤ recencyScore now j.postedDate ∧ recencyScore now j.postedDate ≤ 25 ∧
    0 ≤ experienceScoreQ (orMid p.experienceLevel) (orMid j.experienceLevel) ∧
    experienceScoreQ (orMid p.experienceLevel) (orMid j.experienceLevel) ≤ 20 ∧
    0 ≤ signalsScoreQ j ∧ signalsScoreQ j ≤ 15 ∧
    0 ≤ (calculateJobScore now j p).total ∧
    (calculateJobScore now j p).total ≤ 100 :=
  ⟨rfl, skillScoreQ_nonneg j p, skillScoreQ_le j p,
    recencyScore_nonneg now j.postedDate, recencyScore_le now j.postedDate,
    experienceScoreQ_nonneg _ _, experienceScoreQ_le _ _,
    signalsScoreQ_nonneg j, signalsScoreQ_le j,
    total_nonneg now j p, total_le_hundred now j p⟩

/-- Witness for C1 at a concrete job and profile. -/
theorem scorer_total_bounds_witness :
    profW.skills ≠ [] ∧
    ((calculateJobScore 0 jobW profW).total =
      jsRound (skillScoreQ jobW profW + recencyScore 0 jobW.postedDate +
        experienceScoreQ (orMid profW.experienceLevel) (orMid jobW.experienceLevel) +
        signalsScoreQ jobW) ∧
    0 ≤ skillScoreQ jobW profW ∧ skillScoreQ jobW profW ≤ 40 ∧
    0 ≤ recencyScore 0 jobW.postedDate ∧ recencyScore 0 jobW.postedDate ≤ 25 ∧
    0 ≤ experienceScoreQ (orMid profW.experienceLevel) (orMid jobW.experienceLevel) ∧
    experienceScoreQ (orMid profW.experienceLevel) (orMid jobW.experienceLevel) ≤ 20 ∧
    0 ≤ signalsScoreQ jobW ∧ signalsScoreQ jobW ≤ 15 ∧
    0 ≤ (calculateJobScore 0 jobW profW).total ∧
    (calculateJobScore 0 jobW profW).total ≤ 100) :=
  ⟨by decide, scorer_total_bounds 0 jobW profW (by decide)⟩

/-- Claim C4: `hireProbability` — computed as
`min(100, round((skill/40)*40 + (recency/25)*25 + (experience/20)*20 +
(signals/15)*15))` — always equals `total`. -/
theorem hireProbability_eq_total (now : Int) (j : MatchJob) (p : Profile)
    (h : p.skills ≠ []) :
    (calculateJobScore now j p).hireProbability =
      (calculateJobScore now j p).total := by
  show min 100 (jsRound (skillScoreQ j p / 40 * 40 +
      recencyScore now j.postedDate / 25 * 25 +
      experienceScoreQ (orMid p.experienceLevel) (orMid j.experienceLevel) / 20 * 20 +
      signalsScoreQ j / 15 * 15)) =
    (calculateJobScore now j p).total
  rw [div_mul_cancel₀ _ (by norm_num : (40 : ℚ) ≠ 0),
    div_mul_cancel₀ _ (by norm_num : (25 : ℚ) ≠ 0),
    div_mul_cancel₀ _ (by norm_num : (20 : ℚ) ≠ 0),
    div_mul_cancel₀ _ (by norm_num : (15 : ℚ) ≠ 0)]
  rw [total_eq_round_factorSum]
  exact min_eq_right (jsRound_le_hundred (factorSum_le now j p))

/-- Witness for C4 at a concrete job and profile. -/
theorem hireProbability_eq_total_witness :
    profW.skills ≠ [] ∧
    (calculateJobScore 0 jobW profW).hireProbability =
      (calculateJobScore 0 jobW profW).total :=
  ⟨by decide, hireProbability_eq_total 0 jobW profW (by decide)⟩

/-- Sample job showing that the batch endpoint accepts an empty skills
list. -/
def jobC2 : MatchJob :=
  { title := "Backend Engineer"
    company := "Acme"
    location := "Berlin"
    description := "Typescript services"
    postedDate := none
    experienceLevel := "mid" }

/-- Claim C2 (failing input, see the claim's status): the
`/api/match-jobs` validation `if (!profile || !profile.skills)` tests JS
truthiness of the `skills` value, and an empty array is truthy, so a
profile with `skills = []` passes the guard and the batch scorer runs,
with the skill-overlap divisor `userSkills.length` equal to 0 (`0/0`,
i.e. `NaN`, in the JS arithmetic). No `InvalidProfile` error is
produced. -/
theorem emptySkills_passes_guard :
    matchJobsEndpoint 0 (some [jobC2])
        (some { skills := some [], experienceLevel := "mid" }) =
      .ok (matchJobs 0 [jobC2] { skills := [], experienceLevel := "mid" }) ∧
    (userSkills { skills := [], experienceLevel := "mid" }).length = 0 :=
  ⟨rfl, rfl⟩

/-- Claim C6: the recency factor is bucketed exactly by
`floor((now - postedDate) / 1 day)` — ≤1 → 25, ≤3 → 20, ≤7 → 15,
≤14 → 10, else 5 — so a job posted right now scores 25 and a job posted
30 days ago scores 5; a missing `postedDate` contributes 0 and produces
no recency reasoning entry. -/
theorem recency_bucket_spec (now posted : Int) :
    recencyScore now (some posted) =
      (if (now - posted).fdiv 86400000 ≤ 1 then 25
       else if (now - posted).fdiv 86400000 ≤ 3 then 20
       else if (now - posted).fdiv 86400000 ≤ 7 then 15
       else if (now - posted).fdiv 86400000 ≤ 14 then 10
       else (5 : ℚ)) ∧
    recencyScore now (some now) = 25 ∧
    recencyScore now (some (now - 30 * 86400000)) = 5 ∧
    recencyScore now none = 0 ∧
    recencyReasoning now none = [] := by
  refine ⟨rfl, ?_, ?_, rfl, rfl⟩
  · unfold recencyScore daysAgo
    dsimp only
    rw [sub_self]
    norm_num
  · unfold recencyScore daysAgo msPerDay
    dsimp only
    rw [sub_sub_cancel, Int.mul_fdiv_cancel _ (by norm_num)]
    norm_num

/-- A stored job that already went through `applied` (its `appliedDate`
is stamped) and currently sits in `interviewing`. -/
def storeJobC3 : StoreJob :=
  { id := "job_1"
    title := "Backend Engineer"
    company := "Acme"
    location := "Berlin"
    description := "d"
    url := "https://example.com/j/1"
    postedDate := "2024-12-20T00:00:00.000Z"
    salary := none
    experienceLevel := "mid"
    status := "interviewing"
    appliedDate := some "2025-01-01T00:00:00.000Z"
    nextAction := none
    nextActionDate := none
    notes := none }

/-- Counterexample to claim C3 as stated: on the Postgres backend a later
transition back into `applied` re-stamps `applied_date`
unconditionally — the first-set value `2025-01-01` is overwritten. -/
theorem pg_restamps_appliedDate :
    (pgApplyUpdate "2025-01-05T00:00:00.000Z" { status := some "applied" }
        storeJobC3).appliedDate ≠ some "2025-01-01T00:00:00.000Z" := by
  decide

/-- Claim C3 (amended): for an update payload that does not itself carry
an `appliedDate` field, the JSON-file backend stamps `appliedDate` with
the current time exactly on the first transition into `applied` and
leaves an already-set value unchanged; the Postgres backend instead
re-stamps `applied_date` on every transition into `applied`. -/
theorem appliedDate_update_behavior (nowIso : String) (u : UpdateReq)
    (j : StoreJob) (hu : u.appliedDate = none) :
    (jsonApplyUpdate nowIso u j).appliedDate =
      (if u.status = some "applied" ∧ j.appliedDate = none then some nowIso
       else j.appliedDate) ∧
    (pgApplyUpdate nowIso u j).appliedDate =
      (if u.status = some "applied" then some nowIso else j.appliedDate) := by
  constructor
  · unfold jsonApplyUpdate
    rw [hu]
    dsimp only
    split <;> split <;> simp_all
  · unfold pgApplyUpdate
    dsimp only
    cases hs : u.status with
    | none => simp [hs]
    | some s =>
      by_cases hse : s = ""
      · subst hse
        simp
      · by_cases hsa : s = "applied"
        · subst hsa
          simp
        · simp [hse, hsa, Option.some.injEq]

/-- Witness for the amended C3 at a concrete update and record: a second
transition into `applied` leaves the JSON-file backend's `appliedDate` at
its first-set value while the Postgres backend re-stamps it. -/
theorem appliedDate_update_behavior_witness :
    (({ status := some "applied" } : UpdateReq).appliedDate = none) ∧
    ((jsonApplyUpdate "2025-01-05T00:00:00.000Z" { status := some "applied" }
        storeJobC3).appliedDate =
      (if ({ status := some "applied" } : UpdateReq).status = some "applied" ∧
          storeJobC3.appliedDate = none
       then some "2025-01-05T00:00:00.000Z" else storeJobC3.appliedDate) ∧
    (pgApplyUpdate "2025-01-05T00:00:00.000Z" { status := some "applied" }
        storeJobC3).appliedDate =
      (if ({ status := some "applied" } : UpdateReq).status = some "applied"
       then some "2025-01-05T00:00:00.000Z" else storeJobC3.appliedDate)) :=
  ⟨rfl, appliedDate_update_behavior "2025-01-05T00:00:00.000Z"
    { status := some "applied" } storeJobC3 rfl⟩

/-- A freshly created record in status `new`. -/
def storeJobC9 : StoreJob :=
  { storeJobC3 with status := "new", appliedDate := none }

/-- Counterexample to claim C9 as stated: the PUT handlers perform no
runtime validation of `status` (the body is spread into the stored
record), so a single update with an out-of-vocabulary status string
leaves the store with a job whose status is none of the seven values. -/
theorem bogus_status_stored :
    statusOk (runOps [storeJobC9]
      [StoreOp.update "job_1" "2025-01-02T00:00:00.000Z"
        { status := some "on-hold" }]) = false := by
  decide

/-- Does a request keep `status` inside the typed vocabulary? Updates may
omit `status` or supply one of the seven values; creates and deletes are
unconstrained. -/
def opStatusOk : StoreOp → Bool
  | .update _ _ u =>
    match u.status with
    | none => true
    | some st => validStatuses.contains st
  | _ => true

theorem jsonApplyUpdate_status (nowIso : String) (u : UpdateReq)
    (j : StoreJob) :
    (jsonApplyUpdate nowIso u j).status = u.status.getD j.status := by
  unfold jsonApplyUpdate
  dsimp only
  split <;> rfl

theorem jsonCreateJob_status {nowMs : Int} {nowIso : String} {r : CreateReq}
    {j : StoreJob} (h : jsonCreateJob nowMs nowIso r = some j) :
    j.status = "new" := by
  unfold jsonCreateJob at h
  split at h
  · cases h
    rfl
  · cases h

theorem mem_updateFirst {pred : StoreJob → Bool} {f : StoreJob → StoreJob}
    {s : List StoreJob} {x : StoreJob} (hx : x ∈ updateFirst pred f s) :
    x ∈ s ∨ ∃ j ∈ s, x = f j := by
  induction s with
  | nil => simp [updateFirst] at hx
  | cons a t ih =>
    rw [updateFirst] at hx
    split at hx
    · rcases List.mem_cons.mp hx with h | h
      · exact Or.inr ⟨a, List.mem_cons_self a t, h⟩
      · exact Or.inl (List.mem_cons_of_mem a h)
    · rcases List.mem_cons.mp hx with h | h
      · exact Or.inl (by simp [h])
      · rcases ih h with h' | ⟨j, hj, hx'⟩
        · exact Or.inl (List.mem_cons_of_mem a h')
        · exact Or.inr ⟨j, List.mem_cons_of_mem a hj, hx'⟩

theorem statusOk_applyOp {s : List StoreJob} {op : StoreOp}
    (h0 : statusOk s = true) (hop : opStatusOk op = true) :
    statusOk (applyOp s op) = true := by
  rw [statusOk, List.all_eq_true] at h0 ⊢
  cases op with
  | create nowMs nowIso r =>
    dsimp only [applyOp]
    split
    · rename_i j hj
      intro x hx
      rcases List.mem_cons.mp hx with h | h
      · subst h
        rw [jsonCreateJob_status hj]
        decide
      · exact h0 x h
    · exact h0
  | update id nowIso u =>
    intro x hx
    rcases mem_updateFirst hx with h | ⟨j, hj, hx'⟩
    · exact h0 x h
    · subst hx'
      rw [jsonApplyUpdate_status]
      cases hs : u.status with
      | none => exact h0 j hj
      | some st =>
        rw [opStatusOk] at hop
        rw [hs] at hop
        exact hop
  | del id =>
    intro x hx
    exact h0 x ((List.eraseP_sublist s).subset hx)

/-- Claim C9 (amended): creation always stores status `new`, and any
sequence of create/update/delete requests in which every update's
`status` field (when present) is one of the seven enumerated values
keeps every stored job's status inside that vocabulary; the handlers
themselves do not validate, so an update carrying any other string is
stored as-is (see the counterexample). -/
theorem status_invariant (s0 : List StoreJob) (ops : List StoreOp)
    (h0 : statusOk s0 = true)
    (hops : ∀ op ∈ ops, opStatusOk op = true) :
    statusOk (runOps s0 ops) = true := by
  induction ops generalizing s0 with
  | nil => exact h0
  | cons op t ih =>
    rw [runOps, List.foldl_cons]
    exact ih (applyOp s0 op)
      (statusOk_applyOp h0 (hops op (List.mem_cons_self op t)))
      (fun o ho => hops o (List.mem_cons_of_mem op ho))

/-- Witness for the amended C9: a concrete create / update-to-applied /
delete sequence keeps every stored status in the enumerated set. -/
theorem status_invariant_witness :
    statusOk [storeJobC9] = true ∧
    (∀ op ∈ [StoreOp.create 7 "2025-01-02T00:00:00.000Z"
        { title := some "t", company := some "c", url := some "u" },
      StoreOp.update "job_1" "2025-01-03T00:00:00.000Z"
        { status := some "applied" },
      StoreOp.del "job_7"], opStatusOk op = true) ∧
    statusOk (runOps [storeJobC9]
      [StoreOp.create 7 "2025-01-02T00:00:00.000Z"
        { title := some "t", company := some "c", url := some "u" },
      StoreOp.update "job_1" "2025-01-03T00:00:00.000Z"
        { status := some "applied" },
      StoreOp.del "job_7"]) = true :=
  ⟨by decide, by decide, status_invariant _ _ (by decide) (by decide)⟩

theorem scoreLE_trans : ∀ a b c : ScoredJob,
    scoreLE a b → scoreLE b c → scoreLE a c := by
  intro a b c hab hbc
  simp only [scoreLE, decide_eq_true_eq] at *
  omega

theorem scoreLE_total : ∀ a b : ScoredJob, scoreLE a b || scoreLE b a := by
  intro a b
  simp only [scoreLE, Bool.or_eq_true, decide_eq_true_eq]
  omega

/-- Stability of the batch sort: elements sharing a given `matchScore`
appear in the output exactly in their input order. -/
theorem mergeSort_filter_score (l : List ScoredJob) (t : ℤ) :
    (l.mergeSort scoreLE).filter (fun sj => sj.matchScore == t) =
      l.filter (fun sj => sj.matchScore == t) := by
  have hpw : (l.filter (fun sj => sj.matchScore == t)).Pairwise
      (fun a b => scoreLE a b = true) := by
    apply List.pairwise_of_forall_mem_list
    intro a ha b hb
    have ha' := List.of_mem_filter ha
    have hb' := List.of_mem_filter hb
    simp only [beq_iff_eq] at ha' hb'
    simp only [scoreLE, decide_eq_true_eq]
    omega
  have hsub : List.Sublist (l.filter (fun sj => sj.matchScore == t))
      (l.mergeSort scoreLE) :=
    List.sublist_mergeSort scoreLE_trans scoreLE_total hpw (List.filter_sublist l)
  have hsub2 : List.Sublist (l.filter (fun sj => sj.matchScore == t))
      ((l.mergeSort scoreLE).filter (fun sj => sj.matchScore == t)) := by
    have := hsub.filter (fun sj => sj.matchScore == t)
    simpa only [List.filter_filter, Bool.and_self] using this
  have hperm : List.Perm
      ((l.mergeSort scoreLE).filter (fun sj => sj.matchScore == t))
      (l.filter (fun sj => sj.matchScore == t)) :=
    (List.mergeSort_perm l scoreLE).filter _
  exact (hsub2.eq_of_length hperm.length_eq.symm).symm

/-- Claim C5: for every job list and every valid profile the batch scorer
returns exactly as many scored jobs as it was given, in descending
`matchScore` order, and the jobs sharing any given `matchScore` keep
their input relative order (the sort is stable on ties). -/
theorem batch_sorted_stable (now : Int) (jobs : List MatchJob) (p : Profile)
    (h : p.skills ≠ []) :
    (matchJobs now jobs p).length = jobs.length ∧
    (matchJobs now jobs p).Pairwise
      (fun a b => b.matchScore ≤ a.matchScore) ∧
    ∀ t : ℤ, (matchJobs now jobs p).filter (fun sj => sj.matchScore == t) =
      (jobs.map (enrichJob now p)).filter (fun sj => sj.matchScore == t) := by
  refine ⟨?_, ?_, ?_⟩
  · rw [matchJobs, List.length_mergeSort, List.length_map]
  · have hs := List.sorted_mergeSort scoreLE_trans scoreLE_total
      (jobs.map (enrichJob now p))
    exact hs.imp (by simp only [scoreLE, decide_eq_true_eq]; exact fun h => h)
  · intro t
    exact mergeSort_filter_score (jobs.map (enrichJob now p)) t

/-- Witness for C5 at a concrete batch: two jobs with identical total
keep their input order. -/
theorem batch_sorted_stable_witness :
    profW.skills ≠ [] ∧
    ((matchJobs 0 [jobW, jobW] profW).length = ([jobW, jobW] : List MatchJob).length ∧
    (matchJobs 0 [jobW, jobW] profW).Pairwise
      (fun a b => b.matchScore ≤ a.matchScore) ∧
    ∀ t : ℤ, (matchJobs 0 [jobW, jobW] profW).filter (fun sj => sj.matchScore == t) =
      (([jobW, jobW] : List MatchJob).map (enrichJob 0 profW)).filter
        (fun sj => sj.matchScore == t)) :=
  ⟨by decide, batch_sorted_stable 0 [jobW, jobW] profW (by decide)⟩

/-- Claim C10: batch scoring only enriches — the multiset of underlying
jobs is exactly the input, and every output row carries its original job
untouched together with the four derived fields of `calculateJobScore`. -/
theorem batch_enrich_frame (now : Int) (jobs : List MatchJob) (p : Profile) :
    ((matchJobs now jobs p).map (fun sj => sj.job)).Perm jobs ∧
    ∀ sj ∈ matchJobs now jobs p,
      sj.matchScore = (calculateJobScore now sj.job p).total ∧
      sj.matchDetails = (calculateJobScore now sj.job p).breakdown ∧
      sj.hireProbability = (calculateJobScore now sj.job p).hireProbability ∧
      sj.reasoning = (calculateJobScore now sj.job p).reasoning := by
  constructor
  · have hp : List.Perm ((matchJobs now jobs p).map (fun sj => sj.job))
        ((jobs.map (enrichJob now p)).map (fun sj => sj.job)) :=
      (List.mergeSort_perm (jobs.map (enrichJob now p)) scoreLE).map _
    refine hp.trans ?_
    rw [List.map_map]
    have : ((fun sj : ScoredJob => sj.job) ∘ enrichJob now p) = id := by
      funext j
      rfl
    rw [this, List.map_id]
  · intro sj hsj
    rw [matchJobs, List.mem_mergeSort, List.mem_map] at hsj
    obtain ⟨j, _, hj⟩ := hsj
    subst hj
    exact ⟨rfl, rfl, rfl, rfl⟩

/-- Witness for C10 at a concrete batch of one job. -/
theorem batch_enrich_frame_witness :
    (enrichJob 0 profW jobW ∈ matchJobs 0 [jobW] profW) ∧
    ((enrichJob 0 profW jobW).matchScore =
      (calculateJobScore 0 (enrichJob 0 profW jobW).job profW).total ∧
    (enrichJob 0 profW jobW).matchDetails =
      (calculateJobScore 0 (enrichJob 0 profW jobW).job profW).breakdown ∧
    (enrichJob 0 profW jobW).hireProbability =
      (calculateJobScore 0 (enrichJob 0 profW jobW).job profW).hireProbability ∧
    (enrichJob 0 profW jobW).reasoning =
      (calculateJobScore 0 (enrichJob 0 profW jobW).job profW).reasoning) := by
  have hmem : enrichJob 0 profW jobW ∈ matchJobs 0 [jobW] profW := by
    simp [matchJobs]
  exact ⟨hmem, (batch_enrich_frame 0 [jobW] profW).2 (enrichJob 0 profW jobW) hmem⟩

theorem dedupJobs_nil : dedupJobs [] = [] := rfl

theorem dedupJobs_singleton (x : PageJob) : dedupJobs [x] = [x] := by
  simp [dedupJobs, List.findIdx?_cons]

/-- Claim C7: an anchor is emitted exactly when it passes the
role-keyword / job-url classification and its link text length lies
strictly between 10 and 150; on the two-anchor careers page of the
specification exactly the `Senior Backend Engineer` anchor survives,
with experience level `senior` and its root-relative href resolved
against the base URL's scheme and host. -/
theorem extractor_classification :
    (∀ (nowIso company baseUrl : String) (a : Anchor),
      parseCareerPage nowIso company baseUrl none [a] [] =
        (if isJobLink a && decide (10 < (linkTextOf a).length) &&
            decide ((linkTextOf a).length < 150) then
          [anchorJob company baseUrl nowIso a] else [])) ∧
    parseCareerPage "2025-01-01T00:00:00.000Z" "Acme"
        "https://example.com/careers" none
        [{ href := "/careers/123", inner := "Senior Backend Engineer" },
         { href := "/about", inner := "About Us" }] [] =
      [{ title := "Senior Backend Engineer"
         company := "Acme"
         location := "See job posting"
         description := "Found on Acme careers page"
         url := "https://example.com/careers/123"
         salary := none
         experienceLevel := "senior"
         postedDate := "2025-01-01T00:00:00.000Z"
         source := "Acme Careers" }] := by
  constructor
  · intro nowIso company baseUrl a
    by_cases hc : (isJobLink a && decide (10 < (linkTextOf a).length) &&
        decide ((linkTextOf a).length < 150)) = true
    · simp only [parseCareerPage, anchorJobs, List.filterMap, hc, if_true]
      simp only [passesKeywordFilter, truthyStr, Bool.false_eq_true, if_false,
        if_true, List.length_cons, List.length_nil, List.map_nil,
        List.flatten_nil, List.append_nil]
      rw [if_pos (by omega)]
      exact dedupJobs_singleton _
    · rw [Bool.not_eq_true] at hc
      simp only [parseCareerPage, anchorJobs, List.filterMap, hc,
        Bool.false_eq_true, if_false, List.length_nil, List.map_nil,
        List.flatten_nil, List.append_nil]
      rw [if_pos (by omega)]
      exact dedupJobs_nil
  · decide

/-- Claim C8: the JSON-LD fallback never aborts on a malformed block: a
script block on which `JSON.parse` throws is skipped silently and the
records extracted from every other block (and from the anchors) are
unchanged. -/
theorem extractor_skips_malformed (nowIso company baseUrl : String)
    (kw : Option String) (anchors : List Anchor)
    (bl br : List (Option Json)) :
    parseCareerPage nowIso company baseUrl kw anchors (bl ++ none :: br) =
      parseCareerPage nowIso company baseUrl kw anchors (bl ++ br) := by
  simp only [parseCareerPage, List.map_append, List.map_cons,
    List.flatten_append, List.flatten_cons, ldJobs, List.nil_append]

end JobTracker
